import Mathlib

/-!
Verification of the response/error normalization pipeline of a NestJS-style
API backend: the sensitive-data masking utility, the error categorizer, the
client address resolver, the success transform interceptor and the global
exception filter.  All definitions are shallow embeddings of the TypeScript
sources under src/common.
-/

/-! ### JSON-like values

Arbitrary structured data handled by the pipeline (handler results, request
bodies, exception payloads).  A mutual inductive keeps structural recursion
simple.  JavaScript `typeof x === 'object' && x !== null` holds exactly for
`arr` and `obj`.
-/

mutual

inductive JsonValue : Type where
  | null : JsonValue
  | str (s : String) : JsonValue
  | num (n : Int) : JsonValue
  | bool (b : Bool) : JsonValue
  | arr (items : JsonList) : JsonValue
  | obj (fields : JsonFields) : JsonValue

inductive JsonList : Type where
  | nil : JsonList
  | cons (head : JsonValue) (tail : JsonList) : JsonList

inductive JsonFields : Type where
  | nil : JsonFields
  | cons (key : String) (value : JsonValue) (tail : JsonFields) : JsonFields

end

/-- JavaScript scalar test: true for values that are not objects
(`typeof v !== 'object'` or `v === null`). -/
def isScalar : JsonValue → Bool
  | .obj _ => false
  | .arr _ => false
  | _ => true

/-- JavaScript container test: `typeof v === 'object' && v !== null`. -/
def isContainer (v : JsonValue) : Bool := !isScalar v

/-- Entry of an object's field list at a given position (order-preserving view). -/
def entryAt : JsonFields → Nat → Option (String × JsonValue)
  | .nil, _ => none
  | .cons k v _, 0 => some (k, v)
  | .cons _ _ rest, n + 1 => entryAt rest n

/-- Lowercasing as used for the case-insensitive key comparison
(`key.toLowerCase()`), done characterwise. -/
def toLowerStr (s : String) : String := String.mk (s.data.map Char.toLower)

/-! ### Masking utility (mask.util.ts) -/

/-- Default list of sensitive field names that should be masked
(mask.util.ts, `DEFAULT_SENSITIVE_FIELDS`). -/
def DEFAULT_SENSITIVE_FIELDS : List String :=
  ["password", "passwordConfirm", "currentPassword", "newPassword", "token",
   "accessToken", "refreshToken", "secret", "apiKey", "api_key",
   "authorization", "creditCard", "credit_card", "cardNumber", "card_number",
   "cvv", "ssn", "socialSecurityNumber", "pin", "otp", "verificationCode",
   "privateKey", "private_key"]

/-- The mask string that replaces sensitive values (mask.util.ts, `MASK_STRING`). -/
def MASK_STRING : String := "***MASKED***"

/-- Key test of `maskSensitiveData`:
`lowerSensitiveFields.includes(key.toLowerCase())`. -/
def isSensitiveKey (sensitiveFields : List String) (key : String) : Bool :=
  (sensitiveFields.map toLowerStr).contains (toLowerStr key)

mutual

/-- `maskSensitiveData(data, sensitiveFields)` from mask.util.ts: null and
non-object input returned unchanged; arrays mapped elementwise recursing into
containers; objects rebuilt entry by entry. -/
def maskSensitiveData (data : JsonValue) (sensitiveFields : List String) : JsonValue :=
  match data with
  | .null => .null
  | .str s => .str s
  | .num n => .num n
  | .bool b => .bool b
  | .arr items => .arr (maskItems sensitiveFields items)
  | .obj fields => .obj (maskEntries sensitiveFields fields)

/-- The array branch of `maskSensitiveData`: recurse into elements that are
containers, keep other elements unchanged. -/
def maskItems (sensitiveFields : List String) : JsonList → JsonList
  | .nil => .nil
  | .cons item rest =>
      .cons
        (match item with
          | .obj f => .obj (maskEntries sensitiveFields f)
          | .arr a => .arr (maskItems sensitiveFields a)
          | x => x)
        (maskItems sensitiveFields rest)

/-- The object branch of `maskSensitiveData`: sensitive keys get the mask
string, container values are recursed into, scalar values are copied. -/
def maskEntries (sensitiveFields : List String) : JsonFields → JsonFields
  | .nil => .nil
  | .cons k v rest =>
      .cons k
        (if isSensitiveKey sensitiveFields k then .str MASK_STRING
         else match v with
          | .obj f => .obj (maskEntries sensitiveFields f)
          | .arr a => .arr (maskItems sensitiveFields a)
          | x => x)
        (maskEntries sensitiveFields rest)

end

/-- Whether a value is exactly the redaction marker string. -/
def isMaskMarker : JsonValue → Bool
  | .str s => s == MASK_STRING
  | _ => false

mutual

/-- Specification-side predicate: every mapping entry reachable through
mappings and sequences whose key is sensitive carries the mask marker. -/
def allSensitiveMasked (sensitiveFields : List String) : JsonValue → Bool
  | .arr items => allSensitiveMaskedItems sensitiveFields items
  | .obj fields => allSensitiveMaskedFields sensitiveFields fields
  | _ => true

/-- `allSensitiveMasked` over the elements of a sequence. -/
def allSensitiveMaskedItems (sensitiveFields : List String) : JsonList → Bool
  | .nil => true
  | .cons item rest =>
      allSensitiveMasked sensitiveFields item &&
      allSensitiveMaskedItems sensitiveFields rest

/-- `allSensitiveMasked` over the entries of a mapping. -/
def allSensitiveMaskedFields (sensitiveFields : List String) : JsonFields → Bool
  | .nil => true
  | .cons k v rest =>
      (!isSensitiveKey sensitiveFields k || isMaskMarker v) &&
      allSensitiveMasked sensitiveFields v &&
      allSensitiveMaskedFields sensitiveFields rest

end

mutual

theorem maskSensitiveData_all (fs : List String) :
    ∀ x : JsonValue, allSensitiveMasked fs (maskSensitiveData x fs) = true
  | .null => rfl
  | .str _ => rfl
  | .num _ => rfl
  | .bool _ => rfl
  | .arr items => by
      simpa [maskSensitiveData, allSensitiveMasked] using maskItems_all fs items
  | .obj fields => by
      simpa [maskSensitiveData, allSensitiveMasked] using maskEntries_all fs fields

theorem maskItems_all (fs : List String) :
    ∀ items : JsonList, allSensitiveMaskedItems fs (maskItems fs items) = true
  | .nil => rfl
  | .cons (.obj f) rest => by
      simp [maskItems, allSensitiveMaskedItems, allSensitiveMasked,
        maskEntries_all fs f, maskItems_all fs rest]
  | .cons (.arr a) rest => by
      simp [maskItems, allSensitiveMaskedItems, allSensitiveMasked,
        maskItems_all fs a, maskItems_all fs rest]
  | .cons .null rest => by
      simp [maskItems, allSensitiveMaskedItems, allSensitiveMasked,
        maskItems_all fs rest]
  | .cons (.str s) rest => by
      simp [maskItems, allSensitiveMaskedItems, allSensitiveMasked,
        maskItems_all fs rest]
  | .cons (.num n) rest => by
      simp [maskItems, allSensitiveMaskedItems, allSensitiveMasked,
        maskItems_all fs rest]
  | .cons (.bool b) rest => by
      simp [maskItems, allSensitiveMaskedItems, allSensitiveMasked,
        maskItems_all fs rest]

theorem maskEntries_all (fs : List String) :
    ∀ fields : JsonFields, allSensitiveMaskedFields fs (maskEntries fs fields) = true
  | .nil => rfl
  | .cons k (.obj f) rest => by
      by_cases hk : isSensitiveKey fs k = true <;>
        simp [maskEntries, allSensitiveMaskedFields, hk, isMaskMarker,
          allSensitiveMasked, maskEntries_all fs f, maskEntries_all fs rest]
  | .cons k (.arr a) rest => by
      by_cases hk : isSensitiveKey fs k = true <;>
        simp [maskEntries, allSensitiveMaskedFields, hk, isMaskMarker,
          allSensitiveMasked, maskItems_all fs a, maskEntries_all fs rest]
  | .cons k .null rest => by
      by_cases hk : isSensitiveKey fs k = true <;>
        simp [maskEntries, allSensitiveMaskedFields, hk, isMaskMarker,
          allSensitiveMasked, maskEntries_all fs rest]
  | .cons k (.str s) rest => by
      by_cases hk : isSensitiveKey fs k = true <;>
        simp [maskEntries, allSensitiveMaskedFields, hk, isMaskMarker,
          allSensitiveMasked, maskEntries_all fs rest]
  | .cons k (.num n) rest => by
      by_cases hk : isSensitiveKey fs k = true <;>
        simp [maskEntries, allSensitiveMaskedFields, hk, isMaskMarker,
          allSensitiveMasked, maskEntries_all fs rest]
  | .cons k (.bool b) rest => by
      by_cases hk : isSensitiveKey fs k = true <;>
        simp [maskEntries, allSensitiveMaskedFields, hk, isMaskMarker,
          allSensitiveMasked, maskEntries_all fs rest]

end

mutual

theorem maskSensitiveData_idem_aux (fs : List String) :
    ∀ x : JsonValue, maskSensitiveData (maskSensitiveData x fs) fs = maskSensitiveData x fs
  | .null => rfl
  | .str _ => rfl
  | .num _ => rfl
  | .bool _ => rfl
  | .arr items => congrArg JsonValue.arr (maskItems_idem_aux fs items)
  | .obj fields => congrArg JsonValue.obj (maskEntries_idem_aux fs fields)

theorem maskItems_idem_aux (fs : List String) :
    ∀ items : JsonList, maskItems fs (maskItems fs items) = maskItems fs items
  | .nil => rfl
  | .cons (.obj f) rest => by
      simp [maskItems, maskEntries_idem_aux fs f, maskItems_idem_aux fs rest]
  | .cons (.arr a) rest => by
      simp [maskItems, maskItems_idem_aux fs a, maskItems_idem_aux fs rest]
  | .cons .null rest => by
      simp [maskItems, maskItems_idem_aux fs rest]
  | .cons (.str s) rest => by
      simp [maskItems, maskItems_idem_aux fs rest]
  | .cons (.num n) rest => by
      simp [maskItems, maskItems_idem_aux fs rest]
  | .cons (.bool b) rest => by
      simp [maskItems, maskItems_idem_aux fs rest]

theorem maskEntries_idem_aux (fs : List String) :
    ∀ fields : JsonFields, maskEntries fs (maskEntries fs fields) = maskEntries fs fields
  | .nil => rfl
  | .cons k (.obj f) rest => by
      by_cases hk : isSensitiveKey fs k = true <;>
        simp [maskEntries, hk, maskEntries_idem_aux fs f, maskEntries_idem_aux fs rest]
  | .cons k (.arr a) rest => by
      by_cases hk : isSensitiveKey fs k = true <;>
        simp [maskEntries, hk, maskItems_idem_aux fs a, maskEntries_idem_aux fs rest]
  | .cons k .null rest => by
      by_cases hk : isSensitiveKey fs k = true <;>
        simp [maskEntries, hk, maskEntries_idem_aux fs rest]
  | .cons k (.str s) rest => by
      by_cases hk : isSensitiveKey fs k = true <;>
        simp [maskEntries, hk, maskEntries_idem_aux fs rest]
  | .cons k (.num n) rest => by
      by_cases hk : isSensitiveKey fs k = true <;>
        simp [maskEntries, hk, maskEntries_idem_aux fs rest]
  | .cons k (.bool b) rest => by
      by_cases hk : isSensitiveKey fs k = true <;>
        simp [maskEntries, hk, maskEntries_idem_aux fs rest]

end

theorem maskEntries_entryAt (fs : List String) :
    ∀ (fields : JsonFields) (i : Nat) (k : String) (v : JsonValue),
      entryAt fields i = some (k, v) →
      entryAt (maskEntries fs fields) i =
        some (k, if isSensitiveKey fs k then .str MASK_STRING
                 else match v with
                   | .obj f => .obj (maskEntries fs f)
                   | .arr a => .arr (maskItems fs a)
                   | x => x)
  | .nil, i, k, v, h => by cases h
  | .cons k' v' rest, 0, k, v, h => by
      simp only [entryAt, Option.some.injEq, Prod.mk.injEq] at h
      obtain ⟨rfl, rfl⟩ := h
      cases v' <;> by_cases hk : isSensitiveKey fs k' = true <;>
        simp [maskEntries, entryAt, hk]
  | .cons k' v' rest, i + 1, k, v, h => by
      have := maskEntries_entryAt fs rest i k v h
      cases v' <;> simpa [maskEntries, entryAt] using this

/-- C1: for every input structure and every sensitive-field list,
`maskSensitiveData` masks every sensitive-keyed mapping entry (case-insensitive
key match) at every depth reachable through mappings and sequences with the
fixed marker `***MASKED***`, preserves non-matching scalar entries exactly
(same key, same value, same position), recurses into non-matching container
entries, and returns null and non-object inputs unchanged. -/
theorem maskSensitiveData_spec (fs : List String) :
    (∀ x, allSensitiveMasked fs (maskSensitiveData x fs) = true) ∧
    (∀ fields i k v, entryAt fields i = some (k, v) → isSensitiveKey fs k = true →
        entryAt (maskEntries fs fields) i = some (k, .str MASK_STRING)) ∧
    (∀ fields i k v, entryAt fields i = some (k, v) → isSensitiveKey fs k = false →
        isScalar v = true →
        entryAt (maskEntries fs fields) i = some (k, v)) ∧
    (∀ fields i k v, entryAt fields i = some (k, v) → isSensitiveKey fs k = false →
        isContainer v = true →
        entryAt (maskEntries fs fields) i = some (k, maskSensitiveData v fs)) ∧
    (∀ fields, maskSensitiveData (.obj fields) fs = .obj (maskEntries fs fields)) ∧
    (∀ items, maskSensitiveData (.arr items) fs = .arr (maskItems fs items)) ∧
    maskSensitiveData .null fs = .null ∧
    (∀ s, maskSensitiveData (.str s) fs = .str s) ∧
    (∀ n, maskSensitiveData (.num n) fs = .num n) ∧
    (∀ b, maskSensitiveData (.bool b) fs = .bool b) := by
  refine ⟨maskSensitiveData_all fs, ?_, ?_, ?_, fun _ => rfl, fun _ => rfl, rfl,
    fun _ => rfl, fun _ => rfl, fun _ => rfl⟩
  · intro fields i k v h hk
    simpa [hk] using maskEntries_entryAt fs fields i k v h
  · intro fields i k v h hk hs
    have hm := maskEntries_entryAt fs fields i k v h
    cases v <;> simp_all [isScalar]
  · intro fields i k v h hk hc
    have hm := maskEntries_entryAt fs fields i k v h
    cases v <;> simp_all [isContainer, isScalar, maskSensitiveData]

/-- Witness for C1 at concrete inputs: a sensitive entry (case-insensitive,
key `Password`), a preserved non-sensitive scalar entry, and a recursed
container entry, each with the default sensitive-field list. -/
theorem maskSensitiveData_spec_witness :
    entryAt (maskEntries DEFAULT_SENSITIVE_FIELDS
        (.cons "Password" (.str "p1") (.cons "name" (.str "Ada") .nil))) 0
      = some ("Password", .str MASK_STRING) ∧
    entryAt (maskEntries DEFAULT_SENSITIVE_FIELDS
        (.cons "Password" (.str "p1") (.cons "name" (.str "Ada") .nil))) 1
      = some ("name", .str "Ada") ∧
    entryAt (maskEntries DEFAULT_SENSITIVE_FIELDS
        (.cons "user" (.obj (.cons "password" (.str "p1") .nil)) .nil)) 0
      = some ("user",
          maskSensitiveData (.obj (.cons "password" (.str "p1") .nil))
            DEFAULT_SENSITIVE_FIELDS) :=
  ⟨(maskSensitiveData_spec DEFAULT_SENSITIVE_FIELDS).2.1 _ 0 "Password" (.str "p1")
      rfl (by decide),
   (maskSensitiveData_spec DEFAULT_SENSITIVE_FIELDS).2.2.1 _ 1 "name" (.str "Ada")
      rfl (by decide) rfl,
   (maskSensitiveData_spec DEFAULT_SENSITIVE_FIELDS).2.2.2.1 _ 0 "user" _
      rfl (by decide) rfl⟩

/-- C9: masking is idempotent: for every input structure and every
sensitive-field list, applying `maskSensitiveData` twice returns the same
result as applying it once. -/
theorem maskSensitiveData_idempotent (fs : List String) (x : JsonValue) :
    maskSensitiveData (maskSensitiveData x fs) fs = maskSensitiveData x fs :=
  maskSensitiveData_idem_aux fs x

/-! ### Error categorizer (error-category.enum.ts) -/

/-- Closed enumeration of error categories (`ErrorCategory`). -/
inductive ErrorCategory where
  | VALIDATION
  | AUTHENTICATION
  | AUTHORIZATION
  | NOT_FOUND
  | DATABASE
  | EXTERNAL_SERVICE
  | RATE_LIMIT
  | BUSINESS_LOGIC
  | INTERNAL
  | UNKNOWN
deriving DecidableEq

/-- Character-list test: the first list occurs at the head of the second. -/
def charsLeadMatch : List Char → List Char → Bool
  | [], _ => true
  | _ :: _, [] => false
  | a :: as, b :: bs => a == b && charsLeadMatch as bs

/-- Character-list substring occurrence test. -/
def charsContain (sub : List Char) : List Char → Bool
  | [] => charsLeadMatch sub []
  | c :: cs => charsLeadMatch sub (c :: cs) || charsContain sub cs

/-- JavaScript `s.includes(sub)`. -/
def strIncludes (s sub : String) : Bool := charsContain sub.data s.data

/-- The database-keyword check of `getErrorCategory`: case-insensitive
substring match against database, prisma, sql, connection. -/
def hasDbKeyword (errorMessage : String) : Bool :=
  let lowerMessage := toLowerStr errorMessage
  strIncludes lowerMessage "database" || strIncludes lowerMessage "prisma" ||
  strIncludes lowerMessage "sql" || strIncludes lowerMessage "connection"

/-- The external-service-keyword check of `getErrorCategory`: case-insensitive
substring match against timeout, external service, third-party, upstream. -/
def hasExtKeyword (errorMessage : String) : Bool :=
  let lowerMessage := toLowerStr errorMessage
  strIncludes lowerMessage "timeout" || strIncludes lowerMessage "external service" ||
  strIncludes lowerMessage "third-party" || strIncludes lowerMessage "upstream"

/-- JavaScript truthiness of the optional `errorMessage` parameter
(`undefined` and the empty string are falsy). -/
def msgTruthy : Option String → Bool
  | none => false
  | some m => m != ""

/-- The text of the optional message (empty when absent). -/
def msgText : Option String → String
  | none => ""
  | some m => m

/-- `getErrorCategory(statusCode, errorMessage)` from error-category.enum.ts:
exact status mapping first, then keyword matching for 5xx with a message,
then range fallbacks, then UNKNOWN. -/
def getErrorCategory (statusCode : Nat) (errorMessage : Option String) : ErrorCategory :=
  if statusCode = 400 then .VALIDATION
  else if statusCode = 401 then .AUTHENTICATION
  else if statusCode = 403 then .AUTHORIZATION
  else if statusCode = 404 then .NOT_FOUND
  else if statusCode = 429 then .RATE_LIMIT
  else if statusCode = 422 then .BUSINESS_LOGIC
  else if 500 ≤ statusCode ∧ msgTruthy errorMessage = true ∧
      hasDbKeyword (msgText errorMessage) = true then .DATABASE
  else if 500 ≤ statusCode ∧ msgTruthy errorMessage = true ∧
      hasExtKeyword (msgText errorMessage) = true then .EXTERNAL_SERVICE
  else if 400 ≤ statusCode ∧ statusCode < 500 then .VALIDATION
  else if 500 ≤ statusCode then .INTERNAL
  else .UNKNOWN

set_option maxHeartbeats 1600000 in
/-- C2: `getErrorCategory` is a total function applying its rules in priority
order: exact mappings 400/401/403/404/429/422 first regardless of message;
for status ≥ 500 with a message, database keywords win over external-service
keywords; any remaining 4xx is VALIDATION; any remaining status ≥ 500
(including 599 with no message) is INTERNAL; every other status is UNKNOWN. -/
theorem getErrorCategory_spec :
    (∀ m, getErrorCategory 400 m = .VALIDATION) ∧
    (∀ m, getErrorCategory 401 m = .AUTHENTICATION) ∧
    (∀ m, getErrorCategory 403 m = .AUTHORIZATION) ∧
    (∀ m, getErrorCategory 404 m = .NOT_FOUND) ∧
    (∀ m, getErrorCategory 429 m = .RATE_LIMIT) ∧
    (∀ m, getErrorCategory 422 m = .BUSINESS_LOGIC) ∧
    (∀ s msg, 500 ≤ s → hasDbKeyword msg = true →
        getErrorCategory s (some msg) = .DATABASE) ∧
    (∀ s msg, 500 ≤ s → hasDbKeyword msg = false → hasExtKeyword msg = true →
        getErrorCategory s (some msg) = .EXTERNAL_SERVICE) ∧
    (∀ s m, 400 ≤ s → s < 500 → s ≠ 401 → s ≠ 403 → s ≠ 404 → s ≠ 429 → s ≠ 422 →
        getErrorCategory s m = .VALIDATION) ∧
    (∀ s m, 500 ≤ s → hasDbKeyword (msgText m) = false →
        hasExtKeyword (msgText m) = false → getErrorCategory s m = .INTERNAL) ∧
    getErrorCategory 599 none = .INTERNAL ∧
    (∀ s m, s < 400 → getErrorCategory s m = .UNKNOWN) := by
  refine ⟨fun m => by simp [getErrorCategory], fun m => by simp [getErrorCategory],
    fun m => by simp [getErrorCategory], fun m => by simp [getErrorCategory],
    fun m => by simp [getErrorCategory], fun m => by simp [getErrorCategory],
    ?_, ?_, ?_, ?_, by simp [getErrorCategory, msgTruthy], ?_⟩
  · intro s msg h500 hdb
    have hne : msg ≠ "" := by
      intro he; rw [he] at hdb; exact absurd hdb (by decide)
    have htr : msgTruthy (some msg) = true := by simp [msgTruthy, hne]
    simp only [getErrorCategory, msgText]
    split_ifs <;> first | rfl | omega | simp_all
  · intro s msg h500 hdb hext
    have hne : msg ≠ "" := by
      intro he; rw [he] at hext; exact absurd hext (by decide)
    have htr : msgTruthy (some msg) = true := by simp [msgTruthy, hne]
    simp only [getErrorCategory, msgText]
    split_ifs <;> first | rfl | omega | simp_all
  · intro s m h400 h500 h1 h2 h3 h4 h5
    simp only [getErrorCategory]
    split_ifs <;> first | rfl | omega | simp_all
  · intro s m h500 hdb hext
    simp only [getErrorCategory]
    split_ifs <;> first | rfl | omega | simp_all
  · intro s m hs
    simp only [getErrorCategory]
    split_ifs <;> first | rfl | omega | simp_all

/-- Witness for C2 at concrete inputs: the keyword, range-fallback and
UNKNOWN rules each applied at a concrete status code and message. -/
theorem getErrorCategory_spec_witness :
    getErrorCategory 500 (some "Connection refused") = .DATABASE ∧
    getErrorCategory 502 (some "request timeout to upstream") = .EXTERNAL_SERVICE ∧
    getErrorCategory 418 (some "database on fire") = .VALIDATION ∧
    getErrorCategory 599 none = .INTERNAL ∧
    getErrorCategory 302 (some "redirect") = .UNKNOWN := by
  obtain ⟨-, -, -, -, -, -, hdb, hext, hval, hint, -, hunk⟩ := getErrorCategory_spec
  exact ⟨hdb 500 "Connection refused" (by omega) (by decide),
    hext 502 "request timeout to upstream" (by omega) (by decide) (by decide),
    hval 418 (some "database on fire") (by omega) (by omega) (by omega) (by omega)
      (by omega) (by omega) (by omega),
    hint 599 none (by omega) (by decide) (by decide),
    hunk 302 (some "redirect") (by omega)⟩

/-! ### Exception translator (all-exceptions.filter.ts) -/

/-- An error message as carried by the filter: a single string or an array
of strings (`string | string[]`). -/
inductive Msg where
  | str (s : String)
  | arr (items : List String)
deriving DecidableEq

/-- The payload of `HttpException.getResponse()`: a plain string, or a
mapping with optional `message` (string or string array) and `error`
fields. -/
inductive HttpExceptionResponse where
  | strRes (s : String)
  | objRes (message : Option Msg) (error : Option String)
deriving DecidableEq

/-- The value caught by the filter: a classified `HttpException` carrying its
own status and payload, any other JavaScript `Error` with a name and a
message, or a thrown non-Error value. -/
inductive CaughtException where
  | httpException (status : Nat) (name : String) (response : HttpExceptionResponse)
  | jsError (name : String) (message : String)
  | nonError
deriving DecidableEq

/-- The status, message and error name the filter settles on. -/
structure ResolvedError where
  status : Nat
  message : Msg
  errorName : String
deriving DecidableEq

/-- Lines 70-93 of `AllExceptionsFilter.catch`: status defaults to 500 and
the message to the localized generic text; an `HttpException` contributes its
own status and payload (`message ?? error ?? 'Error'` for object payloads);
any other `Error` contributes its message text. -/
def resolveException (genericMessage : String) (e : CaughtException) : ResolvedError :=
  match e with
  | .httpException st name res =>
      { status := st
        message :=
          match res with
          | .objRes m err =>
              match m with
              | some mv => mv
              | none =>
                  match err with
                  | some es => .str es
                  | none => .str "Error"
          | .strRes s => .str s
        errorName := name }
  | .jsError name m => { status := 500, message := .str m, errorName := name }
  | .nonError =>
      { status := 500, message := .str genericMessage, errorName := "InternalServerError" }

/-- C3: for every caught exception the filter resolves status and message as
follows: by default status 500 with the localized generic message; a
classified HTTP failure keeps its own status, with message equal to its
payload when the payload is a string, else the payload's `message` field,
else its `error` field, else the literal `Error`; any other Error keeps
status 500 and uses its own message text. -/
theorem resolveException_spec (generic : String) :
    (resolveException generic .nonError =
      { status := 500, message := .str generic, errorName := "InternalServerError" }) ∧
    (∀ name m, resolveException generic (.jsError name m) =
      { status := 500, message := .str m, errorName := name }) ∧
    (∀ st name s, resolveException generic (.httpException st name (.strRes s)) =
      { status := st, message := .str s, errorName := name }) ∧
    (∀ st name mv err,
      resolveException generic (.httpException st name (.objRes (some mv) err)) =
        { status := st, message := mv, errorName := name }) ∧
    (∀ st name es,
      resolveException generic (.httpException st name (.objRes none (some es))) =
        { status := st, message := .str es, errorName := name }) ∧
    (∀ st name, resolveException generic (.httpException st name (.objRes none none)) =
      { status := st, message := .str "Error", errorName := name }) :=
  ⟨rfl, fun _ _ => rfl, fun _ _ _ => rfl, fun _ _ _ _ => rfl,
    fun _ _ _ => rfl, fun _ _ => rfl⟩

/-! ### Validation-error structuring (all-exceptions.filter.ts) -/

/-- JavaScript `s.split(sep)` for a single-character separator, over
character lists. -/
def splitOnChar (sep : Char) : List Char → List (List Char)
  | [] => [[]]
  | c :: rest =>
      let r := splitOnChar sep rest
      if c == sep then [] :: r
      else
        match r with
        | h :: t => (c :: h) :: t
        | [] => [[c]]

/-- The field-name heuristic of `structureValidationErrors`:
`msg.split(' ')[0] || 'general'`. -/
def fieldOf (msg : String) : String :=
  let firstToken := String.mk ((splitOnChar ' ' msg.data).headD [])
  if firstToken == "" then "general" else firstToken

/-- One step of the accumulation: JavaScript object update semantics (an
existing key keeps its place and appends; a new key is appended at the
end). -/
def addError (acc : List (String × List String)) (field msg : String) :
    List (String × List String) :=
  match acc with
  | [] => [(field, [msg])]
  | (f, ms) :: rest =>
      if f == field then (f, ms ++ [msg]) :: rest
      else (f, ms) :: addError rest field msg

/-- `structureValidationErrors(messages)` from all-exceptions.filter.ts. -/
def structureValidationErrors (messages : List String) : List (String × List String) :=
  messages.foldl (fun acc msg => addError acc (fieldOf msg) msg) []

/-- First-match lookup in the field→messages mapping. -/
def lookupField (field : String) : List (String × List String) → Option (List String)
  | [] => none
  | (f, ms) :: rest => if f == field then some ms else lookupField field rest

/-- The conditional `errors` member of the error envelope meta: present
exactly when the category is VALIDATION and the message is an array. -/
def metaErrors (errorCategory : ErrorCategory) (message : Msg) :
    Option (List (String × List String)) :=
  match message with
  | .arr items =>
      if errorCategory = .VALIDATION then some (structureValidationErrors items) else none
  | .str _ => none

theorem lookupField_addError (field g msg : String) :
    ∀ acc, lookupField field (addError acc g msg) =
      if g == field then some ((lookupField field acc).getD [] ++ [msg])
      else lookupField field acc := by
  intro acc
  induction acc with
  | nil => by_cases h : g = field <;> simp [addError, lookupField, h]
  | cons p rest ih =>
      obtain ⟨f, ms⟩ := p
      by_cases h1 : f = g
      · subst h1
        by_cases h2 : f = field <;> simp [addError, lookupField, h2]
      · by_cases h2 : f = field
        · subst h2
          have : ¬ g = f := fun he => h1 he.symm
          simp [addError, lookupField, h1, this]
        · simp [addError, lookupField, h1, h2, ih]

theorem lookupField_structure_aux (field : String) :
    ∀ (messages : List String) (acc : List (String × List String)),
      lookupField field (messages.foldl (fun a m => addError a (fieldOf m) m) acc) =
        match lookupField field acc with
        | some ms => some (ms ++ messages.filter (fun m => fieldOf m == field))
        | none =>
            let l := messages.filter (fun m => fieldOf m == field)
            if l.isEmpty then none else some l := by
  intro messages
  induction messages with
  | nil =>
      intro acc
      cases h : lookupField field acc <;> simp [h]
  | cons m rest ih =>
      intro acc
      rw [List.foldl_cons, ih (addError acc (fieldOf m) m), lookupField_addError]
      by_cases hm : fieldOf m = field
      · cases h : lookupField field acc with
        | some ms => simp [hm, h, List.filter_cons]
        | none => simp [hm, h, List.filter_cons]
      · cases h : lookupField field acc with
        | some ms => simp [hm, h, List.filter_cons]
        | none => simp [hm, h, List.filter_cons]

/-- C4: `meta.errors` is present exactly when the computed category is
VALIDATION and the message is an array; when present it maps each message's
first space-delimited token (falling back to `general` when that token is
empty) to the list of messages sharing that token, in original order. -/
theorem metaErrors_spec :
    (∀ cat m, (metaErrors cat m).isSome = true ↔
        cat = ErrorCategory.VALIDATION ∧ ∃ items, m = Msg.arr items) ∧
    (∀ messages field, lookupField field (structureValidationErrors messages) =
        (let l := messages.filter (fun m => fieldOf m == field)
         if l.isEmpty then none else some l)) ∧
    fieldOf "" = "general" ∧
    fieldOf " leading space" = "general" ∧
    fieldOf "email must be an email" = "email" := by
  refine ⟨?_, ?_, by decide, by decide, by decide⟩
  · intro cat m
    cases m with
    | str s => simp [metaErrors]
    | arr items =>
        by_cases hc : cat = ErrorCategory.VALIDATION <;> simp [metaErrors, hc]
  · intro messages field
    have := lookupField_structure_aux field messages []
    simpa [lookupField, structureValidationErrors] using this

/-! ### Client address resolver (ip.util.ts) -/

/-- A request header value: a single string or an array of strings. -/
inductive HeaderValue where
  | strVal (s : String)
  | arrVal (vs : List String)
deriving DecidableEq

/-- Resolved client address information (`IpInfo`). -/
structure IpInfo where
  ipv4 : String
  ipv6 : String
  display : String
deriving DecidableEq

/-- Whitespace as removed by JavaScript `trim` (the kinds occurring in
header values). -/
def isTrimWs (c : Char) : Bool := c == ' ' || c == '\t' || c == '\n' || c == '\r'

/-- Remove leading whitespace from a character list. -/
def dropLeadingWs : List Char → List Char
  | [] => []
  | c :: cs => if isTrimWs c then dropLeadingWs cs else c :: cs

/-- JavaScript `s.trim()`. -/
def trimStr (s : String) : String :=
  String.mk (dropLeadingWs (dropLeadingWs s.data.reverse).reverse)

/-- The fixed list of proxy headers inspected by `getClientIpInfo`. -/
def proxyHeaders : List String :=
  ["x-forwarded-for", "x-real-ip", "cf-connecting-ip", "true-client-ip", "x-client-ip"]

/-- First-match lookup of a request header. -/
def lookupHeader (name : String) : List (String × HeaderValue) → Option HeaderValue
  | [] => none
  | (n, v) :: rest => if n == name then some v else lookupHeader name rest

/-- `ips.add(x)`: JavaScript Set insertion (insertion-ordered, duplicates
ignored). -/
def addIp (ips : List String) (ip : String) : List String :=
  if ips.contains ip then ips else ips ++ [ip]

/-- Candidate collection from one header value: a string value is
comma-split with each part trimmed, an array value contributes each trimmed
element; an absent or empty-string (falsy) value is skipped. -/
def addHeaderValue (ips : List String) (v : Option HeaderValue) : List String :=
  match v with
  | none => ips
  | some (.strVal s) =>
      if s == "" then ips
      else ((splitOnChar ',' s.data).map String.mk).foldl
        (fun acc ip => addIp acc (trimStr ip)) ips
  | some (.arrVal vs) => vs.foldl (fun acc ip => addIp acc (trimStr ip)) ips

/-- The candidate set of `getClientIpInfo`: the five proxy headers in order,
then the framework-resolved `request.ip`, then the socket remote address
(the last two added untrimmed, skipped when absent or empty). -/
def collectIps (headers : List (String × HeaderValue))
    (reqIp : Option String) (remoteAddress : Option String) : List String :=
  let ips := proxyHeaders.foldl (fun acc h => addHeaderValue acc (lookupHeader h headers)) []
  let ips' := match reqIp with
    | some s => if s == "" then ips else addIp ips s
    | none => ips
  match remoteAddress with
  | some s => if s == "" then ips' else addIp ips' s
  | none => ips'

/-- Character-level `String.startsWith`. -/
def strLead (pre s : String) : Bool := charsLeadMatch pre.data s.data

/-- One classification step of `getClientIpInfo` over a candidate: an
IPv4-mapped-IPv6 candidate contributes its suffix to the IPv4 slot; any other
candidate containing a colon fills the IPv6 slot; any other candidate
containing a dot fills the IPv4 slot; a filled slot is never overwritten. -/
def classifyStep (acc : String × String) (ip : String) : String × String :=
  if strLead "::ffff:" ip then
    (if acc.1 == "" then String.mk (ip.data.drop 7) else acc.1, acc.2)
  else if ip.data.contains ':' then
    (acc.1, if acc.2 == "" then ip else acc.2)
  else if ip.data.contains '.' then
    (if acc.1 == "" then ip else acc.1, acc.2)
  else acc

/-- The classification loop of `getClientIpInfo` (`ips.forEach`). -/
def classifyIps (ips : List String) : String × String := ips.foldl classifyStep ("", "")

/-- `getClientIpInfo(request)` from ip.util.ts: collect candidates, classify
them, apply the loopback defaulting (in source order), and build the display
string. -/
def getClientIpInfo (headers : List (String × HeaderValue))
    (reqIp : Option String) (remoteAddress : Option String) : IpInfo :=
  let c := classifyIps (collectIps headers reqIp remoteAddress)
  let ipv4a := c.1
  let ipv6a := c.2
  let ipv4b := if ipv6a == "::1" && ipv4a == "" then "127.0.0.1" else ipv4a
  let ipv6b := if ipv4b == "127.0.0.1" && ipv6a == "" then "::1" else ipv6a
  let displayParts :=
    (if ipv6b == "" then [] else ["IPv6: " ++ ipv6b]) ++
    (if ipv4b == "" then [] else ["IPv4: " ++ ipv4b])
  { ipv4 := ipv4b, ipv6 := ipv6b,
    display :=
      if displayParts.isEmpty then "unknown" else String.intercalate "\n " displayParts }

/-- Claim-side reading of the classification rules: the IPv4 contribution of
one candidate. -/
def v4Contribution (ip : String) : Option String :=
  if strLead "::ffff:" ip then some (String.mk (ip.data.drop 7))
  else if ip.data.contains ':' then none
  else if ip.data.contains '.' then some ip
  else none

/-- Claim-side reading of the classification rules: the IPv6 contribution of
one candidate. -/
def v6Contribution (ip : String) : Option String :=
  if strLead "::ffff:" ip then none
  else if ip.data.contains ':' then some ip
  else none

/-- First non-empty string of a list (empty default). -/
def firstNonEmptyString : List String → String
  | [] => ""
  | s :: rest => if s == "" then firstNonEmptyString rest else s

theorem classifyIps_foldl_fst :
    ∀ (ips : List String) (a b : String),
      (List.foldl classifyStep (a, b) ips).1 =
        firstNonEmptyString (a :: ips.filterMap v4Contribution) := by
  intro ips
  induction ips with
  | nil => intro a b; by_cases h : a = "" <;> simp [firstNonEmptyString, h]
  | cons ip rest ih =>
      intro a b
      rw [List.foldl_cons]
      by_cases h1 : strLead "::ffff:" ip = true
      · rw [show classifyStep (a, b) ip =
            (if a == "" then String.mk (ip.data.drop 7) else a, b) by
              simp [classifyStep, h1]]
        rw [show (ip :: rest).filterMap v4Contribution =
            String.mk (ip.data.drop 7) :: rest.filterMap v4Contribution by
              simp [List.filterMap_cons, v4Contribution, h1]]
        by_cases ha : a = "" <;> simp [ih, firstNonEmptyString, ha]
      · by_cases h2 : ':' ∈ ip.data
        · rw [show classifyStep (a, b) ip = (a, if b == "" then ip else b) by
              simp [classifyStep, h1, h2]]
          rw [show (ip :: rest).filterMap v4Contribution = rest.filterMap v4Contribution by
              simp [List.filterMap_cons, v4Contribution, h1, h2]]
          exact ih a _
        · by_cases h3 : '.' ∈ ip.data
          · rw [show classifyStep (a, b) ip = (if a == "" then ip else a, b) by
                simp [classifyStep, h1, h2, h3]]
            rw [show (ip :: rest).filterMap v4Contribution =
                ip :: rest.filterMap v4Contribution by
                  simp [List.filterMap_cons, v4Contribution, h1, h2, h3]]
            by_cases ha : a = "" <;> simp [ih, firstNonEmptyString, ha]
          · rw [show classifyStep (a, b) ip = (a, b) by
                simp [classifyStep, h1, h2, h3]]
            rw [show (ip :: rest).filterMap v4Contribution = rest.filterMap v4Contribution by
                simp [List.filterMap_cons, v4Contribution, h1, h2, h3]]
            exact ih a b

theorem classifyIps_foldl_snd :
    ∀ (ips : List String) (a b : String),
      (List.foldl classifyStep (a, b) ips).2 =
        firstNonEmptyString (b :: ips.filterMap v6Contribution) := by
  intro ips
  induction ips with
  | nil => intro a b; by_cases h : b = "" <;> simp [firstNonEmptyString, h]
  | cons ip rest ih =>
      intro a b
      rw [List.foldl_cons]
      by_cases h1 : strLead "::ffff:" ip = true
      · rw [show classifyStep (a, b) ip =
            (if a == "" then String.mk (ip.data.drop 7) else a, b) by
              simp [classifyStep, h1]]
        rw [show (ip :: rest).filterMap v6Contribution = rest.filterMap v6Contribution by
            simp [List.filterMap_cons, v6Contribution, h1]]
        exact ih _ b
      · by_cases h2 : ':' ∈ ip.data
        · rw [show classifyStep (a, b) ip = (a, if b == "" then ip else b) by
              simp [classifyStep, h1, h2]]
          rw [show (ip :: rest).filterMap v6Contribution =
              ip :: rest.filterMap v6Contribution by
                simp [List.filterMap_cons, v6Contribution, h1, h2]]
          by_cases hb : b = "" <;> simp [ih, firstNonEmptyString, hb]
        · by_cases h3 : '.' ∈ ip.data
          · rw [show classifyStep (a, b) ip = (if a == "" then ip else a, b) by
                simp [classifyStep, h1, h2, h3]]
            rw [show (ip :: rest).filterMap v6Contribution = rest.filterMap v6Contribution by
                simp [List.filterMap_cons, v6Contribution, h1, h2]]
            exact ih _ b
          · rw [show classifyStep (a, b) ip = (a, b) by
                simp [classifyStep, h1, h2, h3]]
            rw [show (ip :: rest).filterMap v6Contribution = rest.filterMap v6Contribution by
                simp [List.filterMap_cons, v6Contribution, h1, h2]]
            exact ih a b

/-- C6: the classification is first-seen-wins per slot — the IPv4 slot gets
the first candidate contributing via the `::ffff:` suffix rule or the
dot rule, the IPv6 slot the first other candidate containing a colon; the
loopback defaulting fills the missing counterpart of `::1`/`127.0.0.1`; the
display lists whichever of IPv6/IPv4 were resolved or `unknown` when both are
empty; and the two concrete examples from the specification hold. -/
theorem getClientIpInfo_spec :
    (∀ ips, classifyIps ips =
        (firstNonEmptyString (ips.filterMap v4Contribution),
         firstNonEmptyString (ips.filterMap v6Contribution))) ∧
    (∀ headers reqIp remoteAddress,
        classifyIps (collectIps headers reqIp remoteAddress) = ("", "::1") →
        getClientIpInfo headers reqIp remoteAddress =
          { ipv4 := "127.0.0.1", ipv6 := "::1",
            display := "IPv6: ::1\n IPv4: 127.0.0.1" }) ∧
    (∀ headers reqIp remoteAddress,
        classifyIps (collectIps headers reqIp remoteAddress) = ("127.0.0.1", "") →
        getClientIpInfo headers reqIp remoteAddress =
          { ipv4 := "127.0.0.1", ipv6 := "::1",
            display := "IPv6: ::1\n IPv4: 127.0.0.1" }) ∧
    (∀ headers reqIp remoteAddress,
        classifyIps (collectIps headers reqIp remoteAddress) = ("", "") →
        getClientIpInfo headers reqIp remoteAddress =
          { ipv4 := "", ipv6 := "", display := "unknown" }) ∧
    (getClientIpInfo [("x-forwarded-for", .strVal "203.0.113.5, 10.0.0.1")] none none =
      { ipv4 := "203.0.113.5", ipv6 := "", display := "IPv4: 203.0.113.5" }) ∧
    (getClientIpInfo [] none (some "::1") =
      { ipv4 := "127.0.0.1", ipv6 := "::1",
        display := "IPv6: ::1\n IPv4: 127.0.0.1" }) := by
  refine ⟨?_, ?_, ?_, ?_, by rfl, by rfl⟩
  · intro ips
    have h1 := classifyIps_foldl_fst ips "" ""
    have h2 := classifyIps_foldl_snd ips "" ""
    simp only [firstNonEmptyString] at h1 h2
    simpa [classifyIps, Prod.ext_iff] using And.intro h1 h2
  · intro headers reqIp remoteAddress h
    simp only [getClientIpInfo, h]
    rfl
  · intro headers reqIp remoteAddress h
    simp only [getClientIpInfo, h]
    rfl
  · intro headers reqIp remoteAddress h
    simp only [getClientIpInfo, h]
    rfl

/-- Witness for C6: the loopback defaulting rules and the unknown display
applied at concrete header/connection inputs. -/
theorem getClientIpInfo_spec_witness :
    getClientIpInfo [] none (some "::1") =
      { ipv4 := "127.0.0.1", ipv6 := "::1",
        display := "IPv6: ::1\n IPv4: 127.0.0.1" } ∧
    getClientIpInfo [] (some "127.0.0.1") none =
      { ipv4 := "127.0.0.1", ipv6 := "::1",
        display := "IPv6: ::1\n IPv4: 127.0.0.1" } ∧
    getClientIpInfo [] none none = { ipv4 := "", ipv6 := "", display := "unknown" } := by
  obtain ⟨-, h2, h3, h4, -, -⟩ := getClientIpInfo_spec
  exact ⟨h2 [] none (some "::1") rfl, h3 [] (some "127.0.0.1") none rfl,
    h4 [] none none rfl⟩

/-! ### Success transformer (transform.interceptor.ts) -/

/-- Lowercase hex digit for JSON escape sequences. -/
def hexDigit (n : Nat) : Char := if n < 10 then Char.ofNat (48 + n) else Char.ofNat (87 + n)

/-- JSON escape of one character as performed by `JSON.stringify`. -/
def escapeJsonChar (c : Char) : List Char :=
  if c == '"' then ['\\', '"']
  else if c == '\\' then ['\\', '\\']
  else if c == '\n' then ['\\', 'n']
  else if c == '\r' then ['\\', 'r']
  else if c == '\t' then ['\\', 't']
  else if c.toNat == 8 then ['\\', 'b']
  else if c.toNat == 12 then ['\\', 'f']
  else if c.toNat < 32 then
    ['\\', 'u', '0', '0', hexDigit (c.toNat / 16), hexDigit (c.toNat % 16)]
  else [c]

/-- JSON string quoting as performed by `JSON.stringify`. -/
def jsonQuote (s : String) : String :=
  String.mk ('"' :: s.data.foldr (fun c acc => escapeJsonChar c ++ acc) ['"'])

mutual

/-- `JSON.stringify` over the embedded values (acyclic, hence total: the
try/catch fallback of `formatMessage` is unreachable here). -/
def jsonStringify : JsonValue → String
  | .null => "null"
  | .bool b => cond b "true" "false"
  | .num n => toString n
  | .str s => jsonQuote s
  | .arr items => "[" ++ jsonStringifyItems items ++ "]"
  | .obj fields => "\x7b" ++ jsonStringifyFields fields ++ "\x7d"

/-- Comma-joined `JSON.stringify` of array elements. -/
def jsonStringifyItems : JsonList → String
  | .nil => ""
  | .cons v .nil => jsonStringify v
  | .cons v (.cons w rest) =>
      jsonStringify v ++ "," ++ jsonStringifyItems (.cons w rest)

/-- Comma-joined `JSON.stringify` of object entries. -/
def jsonStringifyFields : JsonFields → String
  | .nil => ""
  | .cons k v .nil => jsonQuote k ++ ":" ++ jsonStringify v
  | .cons k v (.cons k2 v2 rest) =>
      jsonQuote k ++ ":" ++ jsonStringify v ++ "," ++
        jsonStringifyFields (.cons k2 v2 rest)

end

mutual

/-- JavaScript `String(element)` as used by `Array.prototype.join`
(null renders as the empty string inside a join). -/
def joinElemString : JsonValue → String
  | .null => ""
  | .str s => s
  | .num n => toString n
  | .bool b => cond b "true" "false"
  | .arr items => joinItems "," items
  | .obj _ => "[object Object]"

/-- JavaScript `array.join(sep)`. -/
def joinItems (sep : String) : JsonList → String
  | .nil => ""
  | .cons v .nil => joinElemString v
  | .cons v (.cons w rest) =>
      joinElemString v ++ sep ++ joinItems sep (.cons w rest)

end

/-- `TransformInterceptor.formatMessage(message)`; `none` models the absent
(`undefined`) message field.  Strings pass, arrays join with a comma-space,
numbers and booleans stringify, objects JSON-serialize, null/undefined give
the generic phrase. -/
def formatMessage : Option JsonValue → String
  | none => "Request successful"
  | some .null => "Request successful"
  | some (.str s) => s
  | some (.arr items) => joinItems ", " items
  | some (.num n) => toString n
  | some (.bool b) => cond b "true" "false"
  | some (.obj fields) => jsonStringify (.obj fields)

/-- `dataObj['message']`-style lookup of an object field. -/
def jsonLookup (key : String) : JsonFields → Option JsonValue
  | .nil => none
  | .cons k v rest => if k == key then some v else jsonLookup key rest

/-- JavaScript `'key' in obj`. -/
def jsonHasKey (key : String) : JsonFields → Bool
  | .nil => false
  | .cons k _ rest => k == key || jsonHasKey key rest

/-- Rest-spread removal of a key, preserving the order of the remaining
entries. -/
def jsonRemoveKey (key : String) : JsonFields → JsonFields
  | .nil => .nil
  | .cons k v rest =>
      if k == key then jsonRemoveKey key rest
      else .cons k v (jsonRemoveKey key rest)

/-- Lines 54-73 of `TransformInterceptor.intercept`: normalize the message
from an object result's `message` field and strip that field from the data;
non-object results pass through with the absent-message default. -/
def transformResult (data : JsonValue) : String × JsonValue :=
  let rawMessage := match data with
    | .obj fields => jsonLookup "message" fields
    | _ => none
  let messageString := formatMessage rawMessage
  let finalData := match data with
    | .obj fields =>
        if jsonHasKey "message" fields then JsonValue.obj (jsonRemoveKey "message" fields)
        else JsonValue.obj fields
    | d => d
  (messageString, finalData)

theorem jsonHasKey_removeKey (key : String) :
    ∀ fields, jsonHasKey key (jsonRemoveKey key fields) = false
  | .nil => rfl
  | .cons k v rest => by
      by_cases h : k = key <;>
        simp [jsonRemoveKey, jsonHasKey, h, jsonHasKey_removeKey key rest]

/-- Claim-side join of a list of strings with a separator. -/
def joinWith (sep : String) : List String → String
  | [] => ""
  | [a] => a
  | a :: b :: rest => a ++ sep ++ joinWith sep (b :: rest)

/-- A list of strings as a JSON array of strings. -/
def strJsonList : List String → JsonList
  | [] => .nil
  | s :: rest => .cons (.str s) (strJsonList rest)

theorem joinItems_strJsonList (sep : String) :
    ∀ l : List String, joinItems sep (strJsonList l) = joinWith sep l := by
  intro l
  induction l with
  | nil => rfl
  | cons a rest ih =>
      cases rest with
      | nil => rfl
      | cons b r2 =>
          simp only [strJsonList] at ih ⊢
          simp [joinItems, joinWith, joinElemString, ih]

/-- C5: an object result with a `message` field yields that field's
normalized value as the envelope message and the object without the field as
`data` (the key is really gone); a non-mapping result passes through
unchanged with the generic success phrase; normalization passes strings
through, joins arrays of strings with a comma-space, stringifies numbers and
booleans, JSON-serializes objects, and maps null/absent to the generic
phrase; in particular a result with message `ok` and id 7 gives message `ok`
and data with id 7 only. -/
theorem transformResult_spec :
    (transformResult (.obj (.cons "message" (.str "ok") (.cons "id" (.num 7) .nil))) =
      ("ok", .obj (.cons "id" (.num 7) .nil))) ∧
    (∀ fields, jsonHasKey "message" fields = true →
        transformResult (.obj fields) =
          (formatMessage (jsonLookup "message" fields),
           .obj (jsonRemoveKey "message" fields))) ∧
    (∀ fields, jsonHasKey "message" (jsonRemoveKey "message" fields) = false) ∧
    (∀ fields, jsonHasKey "message" fields = false →
        transformResult (.obj fields) =
          (formatMessage (jsonLookup "message" fields), .obj fields)) ∧
    (∀ data, isContainer data = false →
        transformResult data = ("Request successful", data)) ∧
    (∀ items, transformResult (.arr items) = ("Request successful", .arr items)) ∧
    (∀ s, formatMessage (some (.str s)) = s) ∧
    (∀ l, formatMessage (some (.arr (strJsonList l))) = joinWith ", " l) ∧
    (∀ n, formatMessage (some (.num n)) = toString n) ∧
    (∀ b, formatMessage (some (.bool b)) = cond b "true" "false") ∧
    (formatMessage (some .null) = "Request successful") ∧
    (formatMessage none = "Request successful") ∧
    (∀ fields, formatMessage (some (.obj fields)) = jsonStringify (.obj fields)) := by
  refine ⟨rfl, ?_, jsonHasKey_removeKey "message", ?_, ?_, fun _ => rfl, fun _ => rfl,
    fun l => joinItems_strJsonList ", " l, fun _ => rfl, fun _ => rfl, rfl, rfl,
    fun _ => rfl⟩
  · intro fields h
    simp [transformResult, h]
  · intro fields h
    simp [transformResult, h]
  · intro data h
    cases data <;> first | rfl | simp_all [isContainer, isScalar]

/-- Witness for C5: the message-extraction rules applied at concrete
results (present message, absent message, non-mapping result). -/
theorem transformResult_spec_witness :
    transformResult (.obj (.cons "message" (.str "ok") .nil)) =
      (formatMessage (jsonLookup "message" (.cons "message" (.str "ok") .nil)),
       .obj (jsonRemoveKey "message" (.cons "message" (.str "ok") .nil))) ∧
    transformResult (.obj (.cons "id" (.num 7) .nil)) =
      (formatMessage (jsonLookup "message" (.cons "id" (.num 7) .nil)),
       .obj (.cons "id" (.num 7) .nil)) ∧
    transformResult (.str "hi") = ("Request successful", .str "hi") := by
  obtain ⟨-, h2, -, h4, h5, -⟩ := transformResult_spec
  exact ⟨h2 _ rfl, h4 _ rfl, h5 _ rfl⟩

/-! ### Logging decisions and the slow-request alert -/

/-- The fixed slow-request threshold (winston.config.ts). -/
def SLOW_REQUEST_THRESHOLD_MS : Nat := 3000

/-- Log severity levels of the structured logger (`logger.log` is the info
level). -/
inductive LogLevel where
  | info
  | warn
  | error
deriving DecidableEq

/-- What a log entry is about: the regular per-request entry or the
slow-request alert. -/
inductive LogKind where
  | request
  | slowAlert
deriving DecidableEq

/-- `AllExceptionsFilter.logByCategory`: severity by status and category
(5xx error; 404, 401/403, 429 and other non-validation 4xx warn;
validation 4xx and the fallback via `logger.log`). -/
def logLevelByCategory (status : Nat) (category : ErrorCategory) : LogLevel :=
  if 500 ≤ status then .error
  else if status = 404 then .warn
  else if status = 401 ∨ status = 403 then .warn
  else if status = 429 then .warn
  else if 400 ≤ status then
    if category = ErrorCategory.VALIDATION then .info else .warn
  else .info

/-- The log entries emitted on the success path (transform.interceptor.ts):
the info request entry, then the slow-request warning exactly when the
duration exceeds the threshold. -/
def successPathLogs (duration : Nat) : List (LogLevel × LogKind) :=
  [(.info, .request)] ++
    (if SLOW_REQUEST_THRESHOLD_MS < duration then [(.warn, .slowAlert)] else [])

/-- The log entries emitted on the error path (all-exceptions.filter.ts):
the categorized request entry, then the same slow-request warning. -/
def errorPathLogs (status : Nat) (category : ErrorCategory) (duration : Nat) :
    List (LogLevel × LogKind) :=
  [(logLevelByCategory status category, .request)] ++
    (if SLOW_REQUEST_THRESHOLD_MS < duration then [(.warn, .slowAlert)] else [])

/-- Number of slow-request alerts in a log sequence. -/
def slowAlertCount (l : List (LogLevel × LogKind)) : Nat :=
  l.countP (fun e => e.2 == LogKind.slowAlert)

/-- Number of regular request entries in a log sequence. -/
def requestLogCount (l : List (LogLevel × LogKind)) : Nat :=
  l.countP (fun e => e.2 == LogKind.request)

/-- C7: on both terminal paths exactly one slow-request warning is emitted
when and only when the measured duration strictly exceeds the 3000 ms
threshold — none at exactly 3000 ms — and it is in addition to the single
regular per-request log entry, which is emitted regardless. -/
theorem slowRequestAlert_spec :
    SLOW_REQUEST_THRESHOLD_MS = 3000 ∧
    (∀ d, slowAlertCount (successPathLogs d) = if 3000 < d then 1 else 0) ∧
    (∀ s c d, slowAlertCount (errorPathLogs s c d) = if 3000 < d then 1 else 0) ∧
    slowAlertCount (successPathLogs 3000) = 0 ∧
    (∀ s c, slowAlertCount (errorPathLogs s c 3000) = 0) ∧
    (∀ d, requestLogCount (successPathLogs d) = 1) ∧
    (∀ s c d, requestLogCount (errorPathLogs s c d) = 1) := by
  refine ⟨rfl, ?_, ?_, rfl, ?_, ?_, ?_⟩
  · intro d
    by_cases h : 3000 < d <;>
      simp [successPathLogs, slowAlertCount, SLOW_REQUEST_THRESHOLD_MS, h]
  · intro s c d
    by_cases h : 3000 < d <;>
      simp [errorPathLogs, slowAlertCount, SLOW_REQUEST_THRESHOLD_MS, h]
  · intro s c
    simp [errorPathLogs, slowAlertCount, SLOW_REQUEST_THRESHOLD_MS]
  · intro d
    by_cases h : 3000 < d <;>
      simp [successPathLogs, requestLogCount, SLOW_REQUEST_THRESHOLD_MS, h]
  · intro s c d
    by_cases h : 3000 < d <;>
      simp [errorPathLogs, requestLogCount, SLOW_REQUEST_THRESHOLD_MS, h]

/-! ### Locale fallback -/

/-- Line 44 of transform.interceptor.ts: `i18n?.lang ?? 'tr'`. -/
def transformInterceptorLang (i18nLang : Option String) : String := i18nLang.getD "tr"

/-- Line 49 of all-exceptions.filter.ts: `i18n?.lang ?? 'tr'`. -/
def allExceptionsFilterLang (i18nLang : Option String) : String := i18nLang.getD "tr"

/-- C8 counterexample: with no localization context active the two fallback
locales do NOT differ — the claim that they are unequal is false. -/
theorem fallbackLocale_claim_false :
    ¬ transformInterceptorLang none ≠ allExceptionsFilterLang none := by
  simp [transformInterceptorLang, allExceptionsFilterLang]

/-- C8 amended: with no localization context active, the Success Transformer
and the Exception Translator fall back to the same locale, namely `tr`. -/
theorem fallbackLocale_amended :
    transformInterceptorLang none = "tr" ∧
    allExceptionsFilterLang none = "tr" ∧
    transformInterceptorLang none = allExceptionsFilterLang none :=
  ⟨rfl, rfl, rfl⟩

/-! ### Error envelope and unstamped-request defaults -/

/-- JavaScript `a || b` over an optional string (an empty string is falsy). -/
def jsOrString (o : Option String) (d : String) : String :=
  match o with
  | some s => if s == "" then d else s
  | none => d

/-- Line 50 of the filter: `request.requestId || 'N/A'`. -/
def resolveRequestId (reqRequestId : Option String) : String :=
  jsOrString reqRequestId "N/A"

/-- Line 51 of the filter: `request.correlationId || requestId`. -/
def resolveCorrelationId (reqCorrelationId : Option String) (requestId : String) : String :=
  jsOrString reqCorrelationId requestId

/-- Line 54 of the filter:
`request.startTime ? Date.now() - request.startTime : 0` (a missing — or
zero, hence falsy — start time gives duration 0). -/
def resolveDuration (startTime : Option Nat) (now : Nat) : Nat :=
  match startTime with
  | some t => if t = 0 then 0 else now - t
  | none => 0

/-- Array messages join with a comma-space for categorization and logging
(`message.join(', ')`); strings pass through. -/
def msgJoin : Msg → String
  | .str s => s
  | .arr items => joinWith ", " items

/-- The meta block of the error envelope. -/
structure ErrorMeta where
  requestId : String
  correlationId : String
  path : String
  method : String
  lang : String
  message : Msg
  timestamp : String
  ipv4 : String
  ipv6 : String
  errorCategory : ErrorCategory
  errors : Option (List (String × List String))
deriving DecidableEq

/-- `IErrorResponse`: the error envelope. -/
structure IErrorResponse where
  success : Bool
  statusCode : Nat
  meta : ErrorMeta
deriving DecidableEq

/-- Lines 96-119 of the filter: categorize using the joined message and
build the envelope (success false, the resolved status, the conditional
`errors` member). -/
def buildErrorResponse (status : Nat) (message : Msg)
    (requestId correlationId path method lang timestamp ipv4 ipv6 : String) :
    IErrorResponse :=
  let errorCategory := getErrorCategory status (some (msgJoin message))
  { success := false
    statusCode := status
    meta :=
      { requestId := requestId
        correlationId := correlationId
        path := path
        method := method
        lang := lang
        message := message
        timestamp := timestamp
        ipv4 := ipv4
        ipv6 := ipv6
        errorCategory := errorCategory
        errors := metaErrors errorCategory message } }

/-- C10: when the correlation middleware never stamped the request the
filter still produces a well-formed envelope whose `meta.requestId` is the
literal `N/A` and whose `meta.correlationId` falls back to that same `N/A`;
and with no stamped start time the duration used for logging and the
slow-request check is 0 ms, so the slow-request alert can never fire for
such a request. -/
theorem unstampedRequest_spec :
    resolveRequestId none = "N/A" ∧
    resolveCorrelationId none (resolveRequestId none) = "N/A" ∧
    (∀ now, resolveDuration none now = 0) ∧
    (∀ s c now, slowAlertCount (errorPathLogs s c (resolveDuration none now)) = 0) ∧
    (∀ status message path method lang timestamp ipv4 ipv6,
        (buildErrorResponse status message (resolveRequestId none)
            (resolveCorrelationId none (resolveRequestId none)) path method lang
            timestamp ipv4 ipv6).meta.requestId = "N/A" ∧
        (buildErrorResponse status message (resolveRequestId none)
            (resolveCorrelationId none (resolveRequestId none)) path method lang
            timestamp ipv4 ipv6).meta.correlationId = "N/A" ∧
        (buildErrorResponse status message (resolveRequestId none)
            (resolveCorrelationId none (resolveRequestId none)) path method lang
            timestamp ipv4 ipv6).success = false) := by
  refine ⟨rfl, rfl, fun _ => rfl, ?_, ?_⟩
  · intro s c now
    simp [slowAlertCount, errorPathLogs, resolveDuration, SLOW_REQUEST_THRESHOLD_MS]
  · intro status message path method lang timestamp ipv4 ipv6
    exact ⟨rfl, rfl, rfl⟩
